import Mathlib

/-!
Verification of the sn77-server incentive pipeline against its specification.

The TypeScript sources are shallowly embedded as Lean functions:

* `VoteCooldownPart000` models the cooldown engine of `src/unnamed/part_000`
  (`checkVoteCooldown`, `calculateCooldownDuration` with the 24-hour
  inactivity reset and the 8-hour cap).
* `VoteCooldownUtils` models the engine variant in
  `src/utils/voteCooldownUtils.ts` (no inactivity reset, 24-hour cap); this
  is the variant imported by the request handler.
* `Server` models the `/updateVotes` handler of
  `src/utils/poolValidationUtils.ts` from the point where the pool entries of
  the message have been split into (address string, weight) pairs, together
  with `upsertUserVotes` and `recordVoteChange` acting on a per-voter
  database state.
* `Scoring` models `calculatePositionScore` / `gaussianScore` and
  `calculateFinalMinerWeights` over real numbers; JavaScript `NaN` / missing
  fields are modelled by `Option`.
* `Signatures` models `verifySignature` / `verifyEthereumSignature`, with the
  cryptographic primitives abstracted as `Except`-valued oracles (a thrown
  exception is the `.error` outcome).

Monetary/time quantities are integers (milliseconds), vote weights are
rationals (JavaScript numbers carrying exact small values), and scores are
real numbers.
-/

namespace SN77

/-! ### Character and string helpers

`lowerStr` models JavaScript `String.prototype.toLowerCase` on the ASCII
addresses handled by the server, reusing core `Char.toLower`. -/

theorem uint32_le_iff (a b : UInt32) : (a ≤ b) ↔ a.toNat ≤ b.toNat := by
  rw [UInt32.le_def, BitVec.le_def]; rfl

theorem char_isUpper_iff (c : Char) : c.isUpper = true ↔ 65 ≤ c.toNat ∧ c.toNat ≤ 90 := by
  have h65 : ((65 : UInt32)).toNat = 65 := by decide
  have h90 : ((90 : UInt32)).toNat = 90 := by decide
  simp only [Char.isUpper, Bool.and_eq_true, decide_eq_true_eq, ge_iff_le]
  rw [uint32_le_iff, uint32_le_iff, h65, h90]
  exact Iff.rfl

theorem char_toNat_toLower (c : Char) :
    (Char.toLower c).toNat = if 65 ≤ c.toNat ∧ c.toNat ≤ 90 then c.toNat + 32 else c.toNat := by
  unfold Char.toLower
  by_cases h : c.toNat ≥ 65 ∧ c.toNat ≤ 90
  · have hv : (c.toNat + 32).isValidChar := Or.inl (by omega)
    simp only [h, and_self, if_true, if_pos h, Char.ofNat, hv, dif_pos]
    rfl
  · rw [if_neg h, if_neg h]

theorem toLower_not_upper (c : Char) : (Char.toLower c).isUpper = false := by
  by_cases h : (Char.toLower c).isUpper = true
  · exfalso
    rw [char_isUpper_iff, char_toNat_toLower] at h
    by_cases h2 : 65 ≤ c.toNat ∧ c.toNat ≤ 90
    · rw [if_pos h2] at h; omega
    · rw [if_neg h2] at h; exact h2 h
  · exact Bool.eq_false_iff.mpr (fun hc => h hc)

def lowerStr (s : String) : String := ⟨s.data.map Char.toLower⟩

theorem lowerStr_no_upper (s : String) : ∀ c ∈ (lowerStr s).data, c.isUpper = false := by
  intro c hc
  simp only [lowerStr, List.mem_map] at hc
  obtain ⟨d, _, rfl⟩ := hc
  exact toLower_not_upper d

/-! ### Cooldown engine state

Both engine variants read the same two rows for a voter: the current
`user_votes.pools` text (if any) and the newest `vote_change_history` row.
Timestamps are milliseconds since the epoch. -/

structure VoteChangeRecord where
  cooldown_until : Option Int
  change_count : Int
  change_timestamp : Int
deriving DecidableEq

structure CooldownQueryState where
  storedPools : Option String
  latestChange : Option VoteChangeRecord
  now : Int
deriving DecidableEq

/-- Math.ceil of a / b for integers, used for the remaining-minutes display. -/
def ceilDivInt (a b : Int) : Int := -((-a).ediv b)

namespace VoteCooldownPart000

def VOTE_CHANGE_COOLDOWN_MS : Int := 72 * 60 * 1000

def PROGRESSIVE_COOLDOWN_MULTIPLIER : Int := 2

def MAX_COOLDOWN_MS : Int := 8 * 60 * 60 * 1000

def FREQUENT_CHANGE_THRESHOLD : Int := 3

def COOLDOWN_RESET_PERIOD_MS : Int := 24 * 60 * 60 * 1000

/-- Embedding of `calculateCooldownDuration` from `src/unnamed/part_000`
(lines 228-246): below the threshold the base cooldown is returned, above it
the base is doubled per extra change and capped at 8 hours. -/
def calculateCooldownDuration (changeCount : Int) : Int :=
  if changeCount < FREQUENT_CHANGE_THRESHOLD then VOTE_CHANGE_COOLDOWN_MS
  else
    min (VOTE_CHANGE_COOLDOWN_MS *
          PROGRESSIVE_COOLDOWN_MULTIPLIER ^
            (changeCount - FREQUENT_CHANGE_THRESHOLD + 1).toNat)
        MAX_COOLDOWN_MS

/-- Effective change count of `checkVoteCooldown` (part_000 lines 52-65): the
latest record's count, reset to 0 when the record is older than 24 hours. -/
def effectiveChangeCount (s : CooldownQueryState) : Int :=
  match s.latestChange with
  | some r => if s.now - r.change_timestamp > COOLDOWN_RESET_PERIOD_MS then 0 else r.change_count
  | none => 0

/-- Embedding of `checkVoteCooldown` from `src/unnamed/part_000` (lines
12-74).  Returns (allowed, error message, next cooldown duration). -/
def checkVoteCooldown (s : CooldownQueryState) (newPools : String) :
    Bool × Option String × Option Int :=
  match s.storedPools with
  | none => (true, none, none)
  | some oldPools =>
    if oldPools = newPools then (true, none, none)
    else
      let active : Bool :=
        match s.latestChange with
        | some r =>
          match r.cooldown_until with
          | some cu => decide (s.now < cu)
          | none => false
        | none => false
      if active then
        let cu := ((s.latestChange.bind VoteChangeRecord.cooldown_until).getD 0)
        (false,
         some ("Vote change blocked. Cooldown active for " ++
               toString (ceilDivInt (cu - s.now) (1000 * 60)) ++ " more minutes."),
         none)
      else
        (true, none, some (calculateCooldownDuration (effectiveChangeCount s)))

end VoteCooldownPart000

namespace VoteCooldownUtils

def VOTE_CHANGE_COOLDOWN_MS : Int := 72 * 60 * 1000

def PROGRESSIVE_COOLDOWN_MULTIPLIER : Int := 2

def MAX_COOLDOWN_MS : Int := 24 * 60 * 60 * 1000

def FREQUENT_CHANGE_THRESHOLD : Int := 3

/-- Embedding of `calculateCooldownDuration` from
`src/utils/voteCooldownUtils.ts` (lines 179-196): same shape as the part_000
variant but capped at 24 hours. -/
def calculateCooldownDuration (changeCount : Int) : Int :=
  if changeCount < FREQUENT_CHANGE_THRESHOLD then VOTE_CHANGE_COOLDOWN_MS
  else
    min (VOTE_CHANGE_COOLDOWN_MS *
          PROGRESSIVE_COOLDOWN_MULTIPLIER ^
            (changeCount - FREQUENT_CHANGE_THRESHOLD + 1).toNat)
        MAX_COOLDOWN_MS

/-- Embedding of `checkVoteCooldown` from `src/utils/voteCooldownUtils.ts`
(lines 12-60): unlike part_000 there is no 24-hour reset of the change
count. -/
def checkVoteCooldown (s : CooldownQueryState) (newPools : String) :
    Bool × Option String × Option Int :=
  match s.storedPools with
  | none => (true, none, none)
  | some oldPools =>
    if oldPools = newPools then (true, none, none)
    else
      let active : Bool :=
        match s.latestChange with
        | some r =>
          match r.cooldown_until with
          | some cu => decide (s.now < cu)
          | none => false
        | none => false
      if active then
        let cu := ((s.latestChange.bind VoteChangeRecord.cooldown_until).getD 0)
        (false,
         some ("Vote change blocked. Cooldown active for " ++
               toString (ceilDivInt (cu - s.now) (1000 * 60 * 60)) ++ " more hours."),
         none)
      else
        let changeCount :=
          match s.latestChange with
          | some r => r.change_count
          | none => 0
        (true, none, some (calculateCooldownDuration changeCount))

end VoteCooldownUtils

/-! ### The cooldown formula of the specification

`specNextCooldown` follows the words of the claim: threshold 2 and exponent
`effective_count + 1 - threshold`.  `clampedNextCooldown` is the clamp form
the code actually realises: threshold 3 and the same `+ 1` shape, so that the
exponent is `effective_count + 1 - 3`. -/

def specNextCooldown (effectiveCount : Int) : Int :=
  max VoteCooldownPart000.VOTE_CHANGE_COOLDOWN_MS
    (min (VoteCooldownPart000.VOTE_CHANGE_COOLDOWN_MS *
           2 ^ (max 0 (effectiveCount + 1 - 2)).toNat)
         VoteCooldownPart000.MAX_COOLDOWN_MS)

def clampedNextCooldown (effectiveCount : Int) : Int :=
  max VoteCooldownPart000.VOTE_CHANGE_COOLDOWN_MS
    (min (VoteCooldownPart000.VOTE_CHANGE_COOLDOWN_MS *
           2 ^ (max 0 (effectiveCount + 1 - 3)).toNat)
         VoteCooldownPart000.MAX_COOLDOWN_MS)

theorem calculateCooldownDuration_eq_clamped (c : Int) (hc : 0 ≤ c) :
    VoteCooldownPart000.calculateCooldownDuration c = clampedNextCooldown c := by
  unfold VoteCooldownPart000.calculateCooldownDuration clampedNextCooldown
  unfold VoteCooldownPart000.VOTE_CHANGE_COOLDOWN_MS VoteCooldownPart000.MAX_COOLDOWN_MS
    VoteCooldownPart000.FREQUENT_CHANGE_THRESHOLD VoteCooldownPart000.PROGRESSIVE_COOLDOWN_MULTIPLIER
  by_cases h : c < 3
  · rw [if_pos h]
    have hk : (max 0 (c + 1 - 3)).toNat = 0 := by omega
    rw [hk]
    norm_num
  · rw [if_neg h]
    have hk : (max 0 (c + 1 - 3)).toNat = (c - 3 + 1).toNat := by omega
    rw [hk]
    have hpow : (0 : Int) < 2 ^ (c - 3 + 1).toNat := pow_pos (by norm_num) _
    have h1 : (1 : Int) ≤ 2 ^ (c - 3 + 1).toNat := by omega
    have hX : (72 * 60 * 1000 : Int) ≤ 72 * 60 * 1000 * 2 ^ (c - 3 + 1).toNat :=
      le_mul_of_one_le_right (by norm_num) h1
    have : (72 * 60 * 1000 : Int) ≤
        min (72 * 60 * 1000 * 2 ^ (c - 3 + 1).toNat) (8 * 60 * 60 * 1000) :=
      le_min hX (by norm_num)
    omega

/-- A concrete admissible state: stored pools "A", latest change record 1000
seconds old with change count 2 and an expired cooldown. -/
def cexState : CooldownQueryState :=
  { storedPools := some ("A")
  , latestChange := some { cooldown_until := some 0, change_count := 2, change_timestamp := 999999000000 }
  , now := 1000000000000 }

/-- C1 counterexample: in `cexState` the change is admitted, but part_000
returns the base 72 minutes (4320000 ms) while the claimed formula with
threshold 2 yields 144 minutes (8640000 ms). -/
theorem checkVoteCooldown_deviates_from_spec_formula :
    VoteCooldownPart000.checkVoteCooldown cexState ("B") = (true, none, some 4320000) ∧
      specNextCooldown 2 = 8640000 ∧ (4320000 : Int) ≠ 8640000 := by
  refine ⟨by decide, by decide, by decide⟩

/-- C1 (amended): a voter with stored pools differing from the new pools and
no active cooldown is admitted with
`next_cooldown = clamp(base * 2 ^ max 0 (effective_count + 1 - threshold), base, cap)`
where threshold = 3 (not 2), base = 72 minutes, cap = 8 hours, and
`effective_count` is the latest record's change count if that record is at
most 24 hours old and 0 otherwise. -/
theorem checkVoteCooldown_admits_with_clamped_duration
    (s : CooldownQueryState) (old newPools : String)
    (hstored : s.storedPools = some old)
    (hdiff : old ≠ newPools)
    (hactive : ∀ r, s.latestChange = some r → ∀ cu, r.cooldown_until = some cu → cu ≤ s.now)
    (hcount : ∀ r, s.latestChange = some r → 0 ≤ r.change_count) :
    VoteCooldownPart000.checkVoteCooldown s newPools =
      (true, none, some (clampedNextCooldown (VoteCooldownPart000.effectiveChangeCount s))) := by
  unfold VoteCooldownPart000.checkVoteCooldown
  rw [hstored]
  simp only [if_neg hdiff]
  have hactiveFalse :
      (match s.latestChange with
        | some r =>
          match r.cooldown_until with
          | some cu => decide (s.now < cu)
          | none => false
        | none => false) = false := by
    cases hlc : s.latestChange with
    | none => rfl
    | some r =>
      show (match r.cooldown_until with
            | some cu => decide (s.now < cu)
            | none => false) = false
      cases hcu : r.cooldown_until with
      | none => rfl
      | some cu =>
        simp only [decide_eq_false_iff_not, not_lt]
        exact hactive r hlc cu hcu
  rw [hactiveFalse]
  simp only [Bool.false_eq_true, if_false]
  have hcEff : 0 ≤ VoteCooldownPart000.effectiveChangeCount s := by
    unfold VoteCooldownPart000.effectiveChangeCount
    cases hlc : s.latestChange with
    | none => simp
    | some r =>
      by_cases hr : s.now - r.change_timestamp > VoteCooldownPart000.COOLDOWN_RESET_PERIOD_MS
      · simp [hr]
      · simp only [hr, if_false]
        exact hcount r hlc
  rw [calculateCooldownDuration_eq_clamped _ hcEff]

/-- Witness for the amended C1 theorem at a concrete state with no history. -/
def witnessState : CooldownQueryState :=
  { storedPools := some ("A"), latestChange := none, now := 0 }

theorem checkVoteCooldown_admits_with_clamped_duration_witness :
    VoteCooldownPart000.checkVoteCooldown witnessState ("B") =
      (true, none, some (clampedNextCooldown (VoteCooldownPart000.effectiveChangeCount witnessState))) :=
  checkVoteCooldown_admits_with_clamped_duration witnessState ("A") ("B") rfl
    (by decide) (fun r h => nomatch h) (fun r h => nomatch h)

/-- C6 counterexample: the `voteCooldownUtils.ts` variant's cap is 24 hours,
so at change count 5 it returns 576 minutes, outside [72 minutes, 8 hours]. -/
theorem calculateCooldownDuration_vcu_exceeds_8h :
    VoteCooldownUtils.calculateCooldownDuration 5 = 34560000 ∧
      ¬ (34560000 : Int) ≤ 8 * 60 * 60 * 1000 := by
  refine ⟨by decide, by decide⟩

/-- C6 (amended): for every change count ≥ 0 the part_000 variant returns a
duration in [72 minutes, 8 hours], while the `voteCooldownUtils.ts` variant
returns a duration in [72 minutes, 24 hours]. -/
theorem calculateCooldownDuration_bounds (c : Int) (hc : 0 ≤ c) :
    (VoteCooldownPart000.VOTE_CHANGE_COOLDOWN_MS ≤ VoteCooldownPart000.calculateCooldownDuration c ∧
      VoteCooldownPart000.calculateCooldownDuration c ≤ VoteCooldownPart000.MAX_COOLDOWN_MS) ∧
    (VoteCooldownUtils.VOTE_CHANGE_COOLDOWN_MS ≤ VoteCooldownUtils.calculateCooldownDuration c ∧
      VoteCooldownUtils.calculateCooldownDuration c ≤ VoteCooldownUtils.MAX_COOLDOWN_MS) := by
  have hbase : ∀ cap : Int, 72 * 60 * 1000 ≤ cap →
      72 * 60 * 1000 ≤
        (if c < 3 then (72 * 60 * 1000 : Int)
         else min (72 * 60 * 1000 * 2 ^ (c - 3 + 1).toNat) cap) ∧
      (if c < 3 then (72 * 60 * 1000 : Int)
         else min (72 * 60 * 1000 * 2 ^ (c - 3 + 1).toNat) cap) ≤ cap := by
    intro cap hcap
    by_cases h : c < 3
    · rw [if_pos h]
      exact ⟨le_refl _, hcap⟩
    · rw [if_neg h]
      have hpow : (0 : Int) < 2 ^ (c - 3 + 1).toNat := pow_pos (by norm_num) _
      have h1 : (1 : Int) ≤ 2 ^ (c - 3 + 1).toNat := by omega
      have hX : (72 * 60 * 1000 : Int) ≤ 72 * 60 * 1000 * 2 ^ (c - 3 + 1).toNat :=
        le_mul_of_one_le_right (by norm_num) h1
      exact ⟨le_min hX hcap, min_le_right _ _⟩
  constructor
  · have := hbase (8 * 60 * 60 * 1000) (by norm_num)
    unfold VoteCooldownPart000.calculateCooldownDuration
    unfold VoteCooldownPart000.VOTE_CHANGE_COOLDOWN_MS VoteCooldownPart000.MAX_COOLDOWN_MS
      VoteCooldownPart000.FREQUENT_CHANGE_THRESHOLD
      VoteCooldownPart000.PROGRESSIVE_COOLDOWN_MULTIPLIER
    exact this
  · have := hbase (24 * 60 * 60 * 1000) (by norm_num)
    unfold VoteCooldownUtils.calculateCooldownDuration
    unfold VoteCooldownUtils.VOTE_CHANGE_COOLDOWN_MS VoteCooldownUtils.MAX_COOLDOWN_MS
      VoteCooldownUtils.FREQUENT_CHANGE_THRESHOLD
      VoteCooldownUtils.PROGRESSIVE_COOLDOWN_MULTIPLIER
    exact this

theorem calculateCooldownDuration_bounds_witness :
    (VoteCooldownPart000.VOTE_CHANGE_COOLDOWN_MS ≤ VoteCooldownPart000.calculateCooldownDuration 0 ∧
      VoteCooldownPart000.calculateCooldownDuration 0 ≤ VoteCooldownPart000.MAX_COOLDOWN_MS) ∧
    (VoteCooldownUtils.VOTE_CHANGE_COOLDOWN_MS ≤ VoteCooldownUtils.calculateCooldownDuration 0 ∧
      VoteCooldownUtils.calculateCooldownDuration 0 ≤ VoteCooldownUtils.MAX_COOLDOWN_MS) :=
  calculateCooldownDuration_bounds 0 (by decide)

/-! ### The /updateVotes handler

`Server` embeds the POST /updateVotes handler of
`src/utils/poolValidationUtils.ts` (lines 835-977) from the point where the
message has been split into pool entries (address string, weight) pairs and a
block number; entry splitting and JavaScript `Number` parsing are abstracted
away, every other check is modelled.  The database is restricted to the rows
of the submitting voter.  External collaborators (pool validation, pool info
storage, current chain block, holder snapshot, clock) enter through `Env`. -/

namespace Server

def VOTE_WEIGHT_TOTAL : Int := 10000

def MAX_POOLS_PER_REQUEST : Nat := 10

def BLOCK_WINDOW : Int := 10

/-- JavaScript Math.round: for the values reached here, floor of x + 1/2. -/
def jsRound (x : ℚ) : Int := ⌊x + 1 / 2⌋

/-- The in-place `normalizedPools[normalizedPools.length - 1].weight += diff`
of lines 885-887: add d to the weight of the final entry. -/
def adjustLast : List (String × Int) → Int → List (String × Int)
  | [], _ => []
  | [p], d => [(p.1, p.2 + d)]
  | p :: q :: ps, d => p :: adjustLast (q :: ps) d

/-- Embedding of the weight normalization of lines 876-888: each weight is
rounded to weight / total * 10000 and the last entry absorbs any residual. -/
def normalizedPools (pools : List (String × ℚ)) : List (String × Int) :=
  let totalWeight : ℚ := (pools.map Prod.snd).sum
  let ns := pools.map (fun p => (p.1, jsRound (p.2 / totalWeight * (10000 : ℚ))))
  let finalSum := (ns.map Prod.snd).sum
  if finalSum ≠ VOTE_WEIGHT_TOTAL then adjustLast ns (VOTE_WEIGHT_TOTAL - finalSum) else ns

theorem adjustLast_map_snd_sum (l : List (String × Int)) (d : Int) (h : l ≠ []) :
    ((adjustLast l d).map Prod.snd).sum = (l.map Prod.snd).sum + d := by
  induction l with
  | nil => exact absurd rfl h
  | cons p ps ih =>
    cases ps with
    | nil => simp [adjustLast]
    | cons q qs =>
      simp only [adjustLast, List.map_cons, List.sum_cons, ih (by simp)]
      ring

theorem adjustLast_map_fst (l : List (String × Int)) (d : Int) :
    (adjustLast l d).map Prod.fst = l.map Prod.fst := by
  induction l with
  | nil => rfl
  | cons p ps ih =>
    cases ps with
    | nil => simp [adjustLast]
    | cons q qs => simp only [adjustLast, List.map_cons, List.cons.injEq, true_and]; exact ih

theorem normalizedPools_sum (pools : List (String × ℚ)) (h : pools ≠ []) :
    ((normalizedPools pools).map Prod.snd).sum = VOTE_WEIGHT_TOTAL := by
  unfold normalizedPools
  set ns := pools.map
    (fun p => (p.1, jsRound (p.2 / (pools.map Prod.snd).sum * (10000 : ℚ)))) with hns
  have hne : ns ≠ [] := by
    rw [hns]
    intro hc
    exact h (List.map_eq_nil.mp hc)
  by_cases hs : (ns.map Prod.snd).sum ≠ VOTE_WEIGHT_TOTAL
  · rw [if_pos hs, adjustLast_map_snd_sum ns _ hne]
    ring
  · rw [if_neg hs]
    exact not_ne_iff.mp hs

theorem normalizedPools_map_fst (pools : List (String × ℚ)) :
    (normalizedPools pools).map Prod.fst = pools.map Prod.fst := by
  unfold normalizedPools
  by_cases hs : ((pools.map
      (fun p => (p.1, jsRound (p.2 / (pools.map Prod.snd).sum * (10000 : ℚ))))).map Prod.snd).sum
      ≠ VOTE_WEIGHT_TOTAL
  · rw [if_pos hs, adjustLast_map_fst]
    simp
  · rw [if_neg hs]
    simp

theorem normalizedPools_length (pools : List (String × ℚ)) :
    (normalizedPools pools).length = pools.length := by
  have := normalizedPools_map_fst pools
  have h1 : ((normalizedPools pools).map Prod.fst).length = (pools.map Prod.fst).length := by
    rw [this]
  simpa using h1

/-- Boolean form of the regex `^0x[a-fA-F0-9]{40}$` of line 852. -/
def isHexDigit (c : Char) : Bool :=
  (decide ('0' ≤ c) && decide (c ≤ '9')) ||
  (decide ('a' ≤ c) && decide (c ≤ 'f')) ||
  (decide ('A' ≤ c) && decide (c ≤ 'F'))

def isPoolAddressFormat (s : String) : Bool :=
  decide (s.data.length = 42) && decide (s.data.take 2 = ['0', 'x']) &&
    (s.data.drop 2).all isHexDigit

/-- Embedding of the entry-validation loop of lines 844-869: empty fields
reject the entry, the address must match the pool-address regex, the weight
must be positive, and accepted addresses are lowercased. -/
def parsePoolEntries : List (String × ℚ) → Except String (List (String × ℚ))
  | [] => Except.ok []
  | (a, w) :: rest =>
    if a = "" then Except.error ("Invalid pool entry format")
    else if ¬ isPoolAddressFormat a then Except.error ("Invalid pool address format")
    else if w ≤ 0 then Except.error ("Weight must be positive")
    else
      match parsePoolEntries rest with
      | Except.ok ps => Except.ok ((lowerStr a, w) :: ps)
      | Except.error e => Except.error e

theorem parsePoolEntries_length (entries ps : List (String × ℚ))
    (h : parsePoolEntries entries = Except.ok ps) : ps.length = entries.length := by
  induction entries generalizing ps with
  | nil =>
    unfold parsePoolEntries at h
    cases h
    rfl
  | cons e rest ih =>
    obtain ⟨a, w⟩ := e
    unfold parsePoolEntries at h
    by_cases h1 : a = ""
    · rw [if_pos h1] at h; cases h
    rw [if_neg h1] at h
    by_cases h2 : ¬ isPoolAddressFormat a
    · rw [if_pos h2] at h; cases h
    rw [if_neg h2] at h
    by_cases h3 : w ≤ 0
    · rw [if_pos h3] at h; cases h
    rw [if_neg h3] at h
    cases hr : parsePoolEntries rest with
    | error e2 => rw [hr] at h; cases h
    | ok ps2 =>
      rw [hr] at h
      cases h
      simp [ih ps2 hr]

theorem parsePoolEntries_addresses (entries ps : List (String × ℚ))
    (h : parsePoolEntries entries = Except.ok ps) :
    ∀ p ∈ ps, ∃ s, p.1 = lowerStr s := by
  induction entries generalizing ps with
  | nil =>
    unfold parsePoolEntries at h
    cases h
    intro p hp
    cases hp
  | cons e rest ih =>
    obtain ⟨a, w⟩ := e
    unfold parsePoolEntries at h
    by_cases h1 : a = ""
    · rw [if_pos h1] at h; cases h
    rw [if_neg h1] at h
    by_cases h2 : ¬ isPoolAddressFormat a
    · rw [if_pos h2] at h; cases h
    rw [if_neg h2] at h
    by_cases h3 : w ≤ 0
    · rw [if_pos h3] at h; cases h
    rw [if_neg h3] at h
    cases hr : parsePoolEntries rest with
    | error e2 => rw [hr] at h; cases h
    | ok ps2 =>
      rw [hr] at h
      cases h
      intro p hp
      rcases List.mem_cons.mp hp with hp | hp
      · exact ⟨a, by rw [hp]⟩
      · exact ih ps2 hr p hp

/-! #### Per-voter database state -/

structure VoteRow where
  pools : List (String × Int)
  signature : String
  message : String
  block_number : Int
  total_weight : ℚ
deriving DecidableEq

structure HistoryRow where
  old_pools : List (String × Int)
  new_pools : List (String × Int)
  change_timestamp : Int
  cooldown_until : Int
  change_count : Int
deriving DecidableEq

/-- Rows of `user_votes` and `vote_change_history` for one voter; the history
list is ordered newest first, matching `ORDER BY change_timestamp DESC`. -/
structure VoterDb where
  vote : Option VoteRow
  history : List HistoryRow
deriving DecidableEq

/-- JSON.stringify of a normalized pools array, as stored in the `pools`
text column and compared by `hasVoteChange` and `checkVoteCooldown`. -/
def poolsJson (ps : List (String × Int)) : String :=
  "[" ++ String.intercalate "," (ps.map (fun p =>
    "\x7b\"address\":\"" ++ p.1 ++ "\",\"weight\":" ++ toString p.2 ++ "\x7d")) ++ "]"

/-- The rows `checkVoteCooldown` reads for this voter at time `now`. -/
def cooldownState (db : VoterDb) (now : Int) : CooldownQueryState :=
  { storedPools := db.vote.map (fun v => poolsJson v.pools)
  , latestChange := db.history.head?.map (fun h =>
      { cooldown_until := some h.cooldown_until
      , change_count := h.change_count
      , change_timestamp := h.change_timestamp })
  , now := now }

/-- Embedding of `upsertUserVotes` from `src/utils/signatureUtils.ts`
dbUtils section (lines 59-89): reject a non-increasing block number,
otherwise insert or overwrite the voter's row. -/
def upsertUserVotes (db : VoterDb) (pools : List (String × Int))
    (signature message : String) (blockNumber : Int) (totalWeight : ℚ) :
    Except String VoterDb :=
  match db.vote with
  | some existing =>
    if blockNumber ≤ existing.block_number then Except.error ("Block number too old")
    else Except.ok { db with vote := some ⟨pools, signature, message, blockNumber, totalWeight⟩ }
  | none => Except.ok { db with vote := some ⟨pools, signature, message, blockNumber, totalWeight⟩ }

/-- Embedding of `recordVoteChange` from `src/utils/voteCooldownUtils.ts`
(lines 62-91): append a history row whose count increments the latest row. -/
def recordVoteChange (db : VoterDb) (now : Int) (oldPools newPools : List (String × Int))
    (cooldownDuration : Int) : VoterDb :=
  let changeCount : Int :=
    match db.history.head? with
    | some r => r.change_count + 1
    | none => 1
  { db with history :=
      ⟨oldPools, newPools, now, now + cooldownDuration, changeCount⟩ :: db.history }

/-- External collaborators of the handler: results of pool validation and
pool-info storage, the current chain block, the holder snapshot and the
clock. -/
structure Holder where
  address : String
  alpha : ℚ
deriving DecidableEq

structure Env where
  poolsValid : Bool
  poolInfoStored : Bool
  currentChainBlock : Int
  holders : List Holder
  now : Int
deriving DecidableEq

structure Response where
  success : Bool
  error : Option String
  message : Option String
  pools : Option (List (String × Int))
deriving DecidableEq

def errResp (e : String) : Response := ⟨false, some e, none, none⟩

def okResp (norm : List (String × Int)) : Response :=
  ⟨true, none, some ("Votes updated"), some norm⟩

/-- The tail of the handler after all request-level guards (lines 925-977):
compute `hasVoteChange` by comparing the stored pools JSON with the new one,
consult `checkVoteCooldown` only on change, upsert, and re-consult
`checkVoteCooldown` for the duration before recording the change. -/
def applyVote (env : Env) (db : VoterDb) (norm : List (String × Int))
    (blockNumber : Int) (signature message : String) : Response × VoterDb :=
  let oldPoolsJson : Option String := db.vote.map (fun v => poolsJson v.pools)
  let newPoolsJson := poolsJson norm
  let hasVoteChange : Bool := oldPoolsJson.isNone || (oldPoolsJson != some newPoolsJson)
  let proceed : Unit → Response × VoterDb := fun _ =>
    match upsertUserVotes db norm signature message blockNumber 1 with
    | Except.error _ => (errResp ("Database operation failed"), db)
    | Except.ok db1 =>
      let db2 :=
        if hasVoteChange && oldPoolsJson.isSome then
          match (VoteCooldownUtils.checkVoteCooldown (cooldownState db1 env.now) newPoolsJson).2.2 with
          | some d =>
            recordVoteChange db1 env.now ((db.vote.map VoteRow.pools).getD []) norm d
          | none => db1
        else db1
      (okResp norm, db2)
  if hasVoteChange then
    if (VoteCooldownUtils.checkVoteCooldown (cooldownState db env.now) newPoolsJson).1 then
      proceed ()
    else
      (errResp ("Vote change blocked by cooldown"), db)
  else proceed ()

/-- Embedding of the POST /updateVotes handler (lines 835-977) from the
splitting of the pools string onward; signature verification, rate limiting
and message splitting precede this fragment and reject without touching the
database. -/
def updateVotes (env : Env) (db : VoterDb) (address : String)
    (entries : List (String × ℚ)) (blockNumber : Int) (signature message : String) :
    Response × VoterDb :=
  if entries.length > MAX_POOLS_PER_REQUEST then (errResp ("Too many pools"), db)
  else
    match parsePoolEntries entries with
    | Except.error e => (errResp e, db)
    | Except.ok pools =>
      if pools.length = 0 then (errResp ("No valid pools specified"), db)
      else
        let norm := normalizedPools pools
        if env.poolsValid = false then (errResp ("Invalid Uniswap V3 pools"), db)
        else if env.poolInfoStored = false then (errResp ("Failed to store pool information"), db)
        else if blockNumber > env.currentChainBlock then (errResp ("Invalid block number"), db)
        else if blockNumber < env.currentChainBlock - BLOCK_WINDOW then
          (errResp ("Block number expired"), db)
        else if env.holders.any (fun h => h.address == address) = false then
          (errResp ("Address does not hold alpha tokens"), db)
        else applyVote env db norm blockNumber signature message

theorem upsertUserVotes_ok (db : VoterDb) (pools : List (String × Int))
    (sig msg : String) (b : Int) (tw : ℚ) (db1 : VoterDb)
    (h : upsertUserVotes db pools sig msg b tw = Except.ok db1) :
    db1.vote = some ⟨pools, sig, msg, b, tw⟩ ∧ db1.history = db.history := by
  unfold upsertUserVotes at h
  cases hv : db.vote with
  | none =>
    rw [hv] at h
    cases h
    exact ⟨rfl, rfl⟩
  | some existing =>
    rw [hv] at h
    dsimp only at h
    by_cases hb : b ≤ existing.block_number
    · rw [if_pos hb] at h; cases h
    · rw [if_neg hb] at h
      cases h
      exact ⟨rfl, rfl⟩

theorem recordVoteChange_vote (db : VoterDb) (now : Int)
    (o n : List (String × Int)) (d : Int) :
    (recordVoteChange db now o n d).vote = db.vote := rfl

/-- On every success path of `applyVote` the voter's row was just overwritten
with the normalized pools, the submitted signature and message, the submitted
block number, and total weight 1. -/
theorem applyVote_success_vote (env : Env) (db : VoterDb) (norm : List (String × Int))
    (b : Int) (sig msg : String)
    (h : (applyVote env db norm b sig msg).1.success = true) :
    (applyVote env db norm b sig msg).2.vote = some ⟨norm, sig, msg, b, 1⟩ := by
  unfold applyVote at h ⊢
  cases hup : upsertUserVotes db norm sig msg b 1 with
  | error e =>
    simp only [hup] at h ⊢
    split at h
    · split at h
      · exact absurd h (by simp [errResp])
      · exact absurd h (by simp [errResp])
    · exact absurd h (by simp [errResp])
  | ok db1 =>
    have hvote := (upsertUserVotes_ok db norm sig msg b 1 db1 hup).1
    simp only [hup] at h ⊢
    by_cases hC : ((Option.map (fun v => poolsJson v.pools) db.vote).isNone ||
        Option.map (fun v => poolsJson v.pools) db.vote != some (poolsJson norm)) = true
    · rw [if_pos hC] at h ⊢
      by_cases hD : (VoteCooldownUtils.checkVoteCooldown (cooldownState db env.now)
          (poolsJson norm)).1 = true
      · rw [if_pos hD] at h ⊢
        split
        · split
          · rw [recordVoteChange_vote]; exact hvote
          · exact hvote
        · exact hvote
      · rw [if_neg hD] at h
        exact absurd h (by simp [errResp])
    · rw [if_neg hC] at h ⊢
      split
      · split
        · rw [recordVoteChange_vote]; exact hvote
        · exact hvote
      · exact hvote

/-- The handler tail rejects only with the cooldown or database messages;
otherwise it succeeds with no error. -/
theorem applyVote_error_cases (env : Env) (db : VoterDb) (norm : List (String × Int))
    (b : Int) (sig msg : String) :
    (applyVote env db norm b sig msg).1.error = none ∨
    (applyVote env db norm b sig msg).1.error = some ("Vote change blocked by cooldown") ∨
    (applyVote env db norm b sig msg).1.error = some ("Database operation failed") := by
  unfold applyVote
  cases hup : upsertUserVotes db norm sig msg b 1 with
  | error e =>
    simp only [hup]
    split
    · split
      · right; right; rfl
      · right; left; rfl
    · right; right; rfl
  | ok db1 =>
    simp only [hup]
    split
    · split
      · left; rfl
      · right; left; rfl
    · left; rfl

/-- Under all request-level guards the handler reduces to its tail. -/
theorem updateVotes_guards (env : Env) (db : VoterDb) (addr : String)
    (entries pools : List (String × ℚ)) (b : Int) (sig msg : String)
    (hlen : ¬ entries.length > MAX_POOLS_PER_REQUEST)
    (hp : parsePoolEntries entries = Except.ok pools)
    (hne : ¬ pools.length = 0)
    (hv1 : env.poolsValid = true)
    (hv2 : env.poolInfoStored = true)
    (hb1 : ¬ b > env.currentChainBlock)
    (hb2 : ¬ b < env.currentChainBlock - BLOCK_WINDOW)
    (hh : env.holders.any (fun h => h.address == addr) = true) :
    updateVotes env db addr entries b sig msg =
      applyVote env db (normalizedPools pools) b sig msg := by
  unfold updateVotes
  rw [if_neg hlen, hp]
  dsimp only
  rw [if_neg hne, if_neg (by simp [hv1]), if_neg (by simp [hv2]), if_neg hb1, if_neg hb2,
    if_neg (by simp [hh])]

/-- C4 (amended): every successful request leaves a vote row whose weights
sum to exactly 10000, whose pools list has at most 10 entries, and whose
addresses contain no uppercase letter; distinctness of the addresses is not
enforced. -/
theorem updateVotes_success_invariants (env : Env) (db : VoterDb) (addr : String)
    (entries : List (String × ℚ)) (b : Int) (sig msg : String)
    (h : (updateVotes env db addr entries b sig msg).1.success = true) :
    ∃ v : VoteRow, (updateVotes env db addr entries b sig msg).2.vote = some v ∧
      (v.pools.map Prod.snd).sum = VOTE_WEIGHT_TOTAL ∧
      v.pools.length ≤ MAX_POOLS_PER_REQUEST ∧
      ∀ a ∈ v.pools.map Prod.fst, ∀ c ∈ a.data, c.isUpper = false := by
  unfold updateVotes at h ⊢
  by_cases hlen : entries.length > MAX_POOLS_PER_REQUEST
  · rw [if_pos hlen] at h; exact absurd h (by simp [errResp])
  rw [if_neg hlen] at h ⊢
  cases hp : parsePoolEntries entries with
  | error e =>
    rw [hp] at h; exact absurd h (by simp [errResp])
  | ok pools =>
    rw [hp] at h
    dsimp only at h ⊢
    by_cases hne : pools.length = 0
    · rw [if_pos hne] at h; exact absurd h (by simp [errResp])
    rw [if_neg hne] at h ⊢
    by_cases hv1 : env.poolsValid = false
    · rw [if_pos hv1] at h; exact absurd h (by simp [errResp])
    rw [if_neg hv1] at h ⊢
    by_cases hv2 : env.poolInfoStored = false
    · rw [if_pos hv2] at h; exact absurd h (by simp [errResp])
    rw [if_neg hv2] at h ⊢
    by_cases hb1 : b > env.currentChainBlock
    · rw [if_pos hb1] at h; exact absurd h (by simp [errResp])
    rw [if_neg hb1] at h ⊢
    by_cases hb2 : b < env.currentChainBlock - BLOCK_WINDOW
    · rw [if_pos hb2] at h; exact absurd h (by simp [errResp])
    rw [if_neg hb2] at h ⊢
    by_cases hh : env.holders.any (fun hh => hh.address == addr) = false
    · rw [if_pos hh] at h; exact absurd h (by simp [errResp])
    rw [if_neg hh] at h ⊢
    refine ⟨⟨normalizedPools pools, sig, msg, b, 1⟩,
      applyVote_success_vote env db (normalizedPools pools) b sig msg h, ?_, ?_, ?_⟩
    · exact normalizedPools_sum pools (fun hc => hne (by rw [hc]; rfl))
    · rw [normalizedPools_length, parsePoolEntries_length entries pools hp]
      omega
    · intro a ha c hc
      rw [normalizedPools_map_fst] at ha
      obtain ⟨p, hp2, rfl⟩ := List.mem_map.mp ha
      obtain ⟨s, hs⟩ := parsePoolEntries_addresses entries pools hp p hp2
      rw [hs] at hc
      exact lowerStr_no_upper s c hc

/-- A first-time voter (no stored row): the tail accepts and inserts the row
without touching the history. -/
theorem applyVote_first_vote (env : Env) (db : VoterDb) (norm : List (String × Int))
    (b : Int) (sig msg : String) (hdb : db.vote = none) :
    applyVote env db norm b sig msg = (okResp norm, ⟨some ⟨norm, sig, msg, b, 1⟩, db.history⟩) := by
  unfold applyVote
  have hcool : (VoteCooldownUtils.checkVoteCooldown (cooldownState db env.now)
      (poolsJson norm)).1 = true := by
    unfold VoteCooldownUtils.checkVoteCooldown cooldownState
    rw [hdb]
    rfl
  have hup : upsertUserVotes db norm sig msg b 1 =
      Except.ok ⟨some ⟨norm, sig, msg, b, 1⟩, db.history⟩ := by
    unfold upsertUserVotes
    rw [hdb]
  simp only [hdb, Option.map_none', Option.isNone_none, Bool.true_or, if_true, hcool, hup,
    Option.isSome_none, Bool.and_false, Bool.false_eq_true, if_false]

/-- Re-submission with unchanged pools: `hasVoteChange` is false, the row is
overwritten with the same pools and the new block number, and no history row
is appended. -/
theorem applyVote_no_change (env : Env) (db : VoterDb) (norm : List (String × Int))
    (b : Int) (sig msg : String) (row : VoteRow)
    (hrow : db.vote = some row) (hsame : row.pools = norm) (hnewer : row.block_number < b) :
    applyVote env db norm b sig msg = (okResp norm, ⟨some ⟨norm, sig, msg, b, 1⟩, db.history⟩) := by
  unfold applyVote
  have hup : upsertUserVotes db norm sig msg b 1 =
      Except.ok ⟨some ⟨norm, sig, msg, b, 1⟩, db.history⟩ := by
    unfold upsertUserVotes
    rw [hrow]
    dsimp only
    rw [if_neg (by omega)]
  simp only [hrow, hsame, Option.map_some', Option.isNone_some, Bool.false_or, bne_self_eq_false,
    Bool.false_eq_true, if_false, hup, Bool.false_and]

/-- A voter absent from the holder snapshot is rejected with the
not-a-holder error and the database is unchanged. -/
theorem updateVotes_not_holder_eq (env : Env) (db : VoterDb) (addr : String)
    (entries pools : List (String × ℚ)) (b : Int) (sig msg : String)
    (hlen : ¬ entries.length > MAX_POOLS_PER_REQUEST)
    (hp : parsePoolEntries entries = Except.ok pools)
    (hne : ¬ pools.length = 0)
    (hv1 : env.poolsValid = true)
    (hv2 : env.poolInfoStored = true)
    (hb1 : ¬ b > env.currentChainBlock)
    (hb2 : ¬ b < env.currentChainBlock - BLOCK_WINDOW)
    (hh : env.holders.any (fun h => h.address == addr) = false) :
    updateVotes env db addr entries b sig msg =
      (errResp ("Address does not hold alpha tokens"), db) := by
  unfold updateVotes
  rw [if_neg hlen, hp]
  dsimp only
  rw [if_neg hne, if_neg (by simp [hv1]), if_neg (by simp [hv2]), if_neg hb1, if_neg hb2,
    if_pos hh]

/-- Concrete environment and per-request constants used by the closed
theorems below. -/
def addrA : String := "0xAAAAAAAAAAAAAAAAAAAAAAAAAAAAAAAAAAAAAAAA"

def addrALower : String := "0xaaaaaaaaaaaaaaaaaaaaaaaaaaaaaaaaaaaaaaaa"

def emptyDb : VoterDb := ⟨none, []⟩

def envDup : Env :=
  { poolsValid := true, poolInfoStored := true, currentChainBlock := 100
  , holders := [⟨"voter4", 5⟩], now := 0 }

theorem normalizedPools_two_halves :
    normalizedPools [(addrALower, (1 : ℚ)), (addrALower, 1)] =
      [(addrALower, 5000), (addrALower, 5000)] := by
  unfold normalizedPools
  norm_num [jsRound, VOTE_WEIGHT_TOTAL]

theorem updateVotes_dup_run :
    updateVotes envDup emptyDb ("voter4") [(addrA, (1 : ℚ)), (addrA, 1)] 100 ("s") ("m") =
      (okResp [(addrALower, 5000), (addrALower, 5000)],
        ⟨some ⟨[(addrALower, 5000), (addrALower, 5000)], "s", "m", 100, 1⟩, []⟩) := by
  have hparse : parsePoolEntries [(addrA, (1 : ℚ)), (addrA, 1)] =
      Except.ok [(addrALower, 1), (addrALower, 1)] := by rfl
  rw [updateVotes_guards envDup emptyDb ("voter4") [(addrA, (1 : ℚ)), (addrA, 1)]
    [(addrALower, 1), (addrALower, 1)] 100 ("s") ("m") (by decide) hparse (by decide) (by decide)
    (by decide) (by decide) (by decide) (by decide)]
  rw [normalizedPools_two_halves]
  exact applyVote_first_vote envDup emptyDb _ 100 ("s") ("m") rfl

/-- C4 counterexample: a message listing the same pool twice passes every
check and is stored with two entries carrying the same address, so the
stored addresses are not pairwise distinct. -/
theorem updateVotes_stores_duplicate_addresses :
    (updateVotes envDup emptyDb ("voter4") [(addrA, (1 : ℚ)), (addrA, 1)] 100 ("s") ("m")).1.success
        = true ∧
    Option.map (fun v => v.pools.map Prod.fst)
        (updateVotes envDup emptyDb ("voter4") [(addrA, (1 : ℚ)), (addrA, 1)] 100 ("s") ("m")).2.vote
        = some [addrALower, addrALower] ∧
    ¬ ([addrALower, addrALower].Nodup) := by
  rw [updateVotes_dup_run]
  refine ⟨rfl, rfl, by decide⟩

theorem updateVotes_success_invariants_witness :
    ∃ v : VoteRow,
      (updateVotes envDup emptyDb ("voter4") [(addrA, (2 : ℚ))] 100 ("s") ("m")).2.vote = some v ∧
      (v.pools.map Prod.snd).sum = VOTE_WEIGHT_TOTAL ∧
      v.pools.length ≤ MAX_POOLS_PER_REQUEST ∧
      ∀ a ∈ v.pools.map Prod.fst, ∀ c ∈ a.data, c.isUpper = false :=
  updateVotes_success_invariants envDup emptyDb ("voter4") [(addrA, (2 : ℚ))] 100 ("s") ("m")
    (by decide)

/-- C3: normalization makes the weights sum to exactly 10000 for every
non-empty list of positive weights, and the weights [1, 1, 1] normalize to
[3333, 3333, 3334]. -/
theorem normalizedPools_sums_to_10000 :
    (∀ pools : List (String × ℚ), pools ≠ [] → (∀ p ∈ pools, 0 < p.2) →
      ((normalizedPools pools).map Prod.snd).sum = VOTE_WEIGHT_TOTAL) ∧
    normalizedPools [("a", (1 : ℚ)), ("b", 1), ("c", 1)] =
      [("a", 3333), ("b", 3333), ("c", 3334)] := by
  constructor
  · exact fun pools hne _ => normalizedPools_sum pools hne
  · unfold normalizedPools
    norm_num [jsRound, VOTE_WEIGHT_TOTAL, adjustLast]

theorem normalizedPools_sums_to_10000_witness :
    ((normalizedPools [("d", (2 : ℚ))]).map Prod.snd).sum = VOTE_WEIGHT_TOTAL :=
  normalizedPools_sums_to_10000.1 [("d", (2 : ℚ))] (by decide) (by norm_num)

/-- Concrete holder snapshots for the not-a-holder scenarios. -/
def envZero : Env :=
  { poolsValid := true, poolInfoStored := true, currentChainBlock := 100
  , holders := [⟨"voter5", 0⟩], now := 0 }

def envNoHolders : Env :=
  { poolsValid := true, poolInfoStored := true, currentChainBlock := 100
  , holders := [], now := 0 }

/-- C5 counterexample: an address present in the holder snapshot with alpha
balance 0 passes the holder check, the request succeeds and a vote row is
written, contradicting the claimed rejection. -/
theorem updateVotes_accepts_zero_alpha_holder :
    (updateVotes envZero emptyDb ("voter5") [(addrA, (1 : ℚ))] 100 ("s") ("m")).1.success = true ∧
    (updateVotes envZero emptyDb ("voter5") [(addrA, (1 : ℚ))] 100 ("s") ("m")).2.vote ≠ none := by
  refine ⟨by decide, by decide⟩

/-- C5 (amended): a voter whose address is absent from the holder snapshot
is rejected with the error string and no row of `user_votes` or
`vote_change_history` is written; presence in the snapshot suffices even
with alpha 0, because the handler only tests membership. -/
theorem updateVotes_rejects_absent_holder (env : Env) (db : VoterDb) (addr : String)
    (entries pools : List (String × ℚ)) (b : Int) (sig msg : String)
    (hlen : ¬ entries.length > MAX_POOLS_PER_REQUEST)
    (hp : parsePoolEntries entries = Except.ok pools)
    (hne : ¬ pools.length = 0)
    (hv1 : env.poolsValid = true)
    (hv2 : env.poolInfoStored = true)
    (hb1 : ¬ b > env.currentChainBlock)
    (hb2 : ¬ b < env.currentChainBlock - BLOCK_WINDOW)
    (hh : env.holders.any (fun h => h.address == addr) = false) :
    updateVotes env db addr entries b sig msg =
      (errResp ("Address does not hold alpha tokens"), db) :=
  updateVotes_not_holder_eq env db addr entries pools b sig msg hlen hp hne hv1 hv2 hb1 hb2 hh

theorem updateVotes_rejects_absent_holder_witness :
    updateVotes envNoHolders emptyDb ("voter6") [(addrA, (1 : ℚ))] 100 ("s") ("m") =
      (errResp ("Address does not hold alpha tokens"), emptyDb) :=
  updateVotes_rejects_absent_holder envNoHolders emptyDb ("voter6") [(addrA, (1 : ℚ))]
    [(addrALower, 1)] 100 ("s") ("m") (by decide) (by rfl) (by decide) (by decide) (by decide)
    (by decide) (by decide) (by decide)

/-- C7: with the earlier checks passing, a block number above the current
chain block is rejected as invalid, one more than 10 blocks behind is
rejected as expired, and any block in the window [current - 10, current]
passes the freshness check (no block error can be returned). -/
theorem updateVotes_block_window_check (env : Env) (db : VoterDb) (addr : String)
    (entries pools : List (String × ℚ)) (b : Int) (sig msg : String)
    (hlen : ¬ entries.length > MAX_POOLS_PER_REQUEST)
    (hp : parsePoolEntries entries = Except.ok pools)
    (hne : ¬ pools.length = 0)
    (hv1 : env.poolsValid = true)
    (hv2 : env.poolInfoStored = true) :
    (b > env.currentChainBlock →
      updateVotes env db addr entries b sig msg = (errResp ("Invalid block number"), db)) ∧
    (b < env.currentChainBlock - BLOCK_WINDOW →
      updateVotes env db addr entries b sig msg = (errResp ("Block number expired"), db)) ∧
    (env.currentChainBlock - BLOCK_WINDOW ≤ b → b ≤ env.currentChainBlock →
      (updateVotes env db addr entries b sig msg).1.error ≠ some ("Invalid block number") ∧
      (updateVotes env db addr entries b sig msg).1.error ≠ some ("Block number expired")) := by
  refine ⟨?_, ?_, ?_⟩
  · intro hb
    unfold updateVotes
    rw [if_neg hlen, hp]
    dsimp only
    rw [if_neg hne, if_neg (by simp [hv1]), if_neg (by simp [hv2]), if_pos hb]
  · intro hb
    have hb1 : ¬ b > env.currentChainBlock := by unfold BLOCK_WINDOW at hb; omega
    unfold updateVotes
    rw [if_neg hlen, hp]
    dsimp only
    rw [if_neg hne, if_neg (by simp [hv1]), if_neg (by simp [hv2]), if_neg hb1, if_pos hb]
  · intro h1 h2
    have hb1 : ¬ b > env.currentChainBlock := by omega
    have hb2 : ¬ b < env.currentChainBlock - BLOCK_WINDOW := by omega
    by_cases hh : env.holders.any (fun x => x.address == addr) = true
    · rw [updateVotes_guards env db addr entries pools b sig msg hlen hp hne hv1 hv2 hb1 hb2 hh]
      rcases applyVote_error_cases env db (normalizedPools pools) b sig msg with h | h | h <;>
        rw [h] <;> exact ⟨by decide, by decide⟩
    · have hh2 : env.holders.any (fun x => x.address == addr) = false :=
        Bool.eq_false_iff.mpr (fun hc => hh hc)
      rw [updateVotes_not_holder_eq env db addr entries pools b sig msg hlen hp hne hv1 hv2
        hb1 hb2 hh2]
      exact ⟨fun hc => by simp [errResp] at hc, fun hc => by simp [errResp] at hc⟩

theorem updateVotes_block_window_check_witness :
    updateVotes envDup emptyDb ("voter7") [(addrA, (1 : ℚ))] 101 ("s") ("m") =
      (errResp ("Invalid block number"), emptyDb) :=
  (updateVotes_block_window_check envDup emptyDb ("voter7") [(addrA, (1 : ℚ))]
    [(addrALower, 1)] 101 ("s") ("m") (by decide) (by rfl) (by decide) (by decide) (by decide)).1
    (by decide)

/-- C8: re-submitting a vote whose normalized pools equal the stored pools
with a newer block number keeps the pools, stores the new block number, and
appends no row to the vote-change history. -/
theorem updateVotes_resubmit_same_pools (env : Env) (db : VoterDb) (addr : String)
    (entries pools : List (String × ℚ)) (b : Int) (sig msg : String) (row : VoteRow)
    (hlen : ¬ entries.length > MAX_POOLS_PER_REQUEST)
    (hp : parsePoolEntries entries = Except.ok pools)
    (hne : ¬ pools.length = 0)
    (hv1 : env.poolsValid = true)
    (hv2 : env.poolInfoStored = true)
    (hb1 : ¬ b > env.currentChainBlock)
    (hb2 : ¬ b < env.currentChainBlock - BLOCK_WINDOW)
    (hh : env.holders.any (fun h => h.address == addr) = true)
    (hrow : db.vote = some row)
    (hsame : row.pools = normalizedPools pools)
    (hnewer : row.block_number < b) :
    updateVotes env db addr entries b sig msg =
      (okResp (normalizedPools pools),
        ⟨some ⟨row.pools, sig, msg, b, 1⟩, db.history⟩) := by
  rw [updateVotes_guards env db addr entries pools b sig msg hlen hp hne hv1 hv2 hb1 hb2 hh,
    hsame]
  exact applyVote_no_change env db (normalizedPools pools) b sig msg row hrow hsame hnewer

def envResubmit : Env :=
  { poolsValid := true, poolInfoStored := true, currentChainBlock := 100
  , holders := [⟨"voter8", 3⟩], now := 0 }

def dbResubmit : VoterDb :=
  ⟨some ⟨[(addrALower, 10000)], "s0", "m0", 50, 1⟩, []⟩

theorem updateVotes_resubmit_same_pools_witness :
    updateVotes envResubmit dbResubmit ("voter8") [(addrA, (1 : ℚ))] 100 ("s1") ("m1") =
      (okResp (normalizedPools [(addrALower, (1 : ℚ))]),
        ⟨some ⟨[(addrALower, 10000)], "s1", "m1", 100, 1⟩, []⟩) :=
  updateVotes_resubmit_same_pools envResubmit dbResubmit ("voter8") [(addrA, (1 : ℚ))]
    [(addrALower, 1)] 100 ("s1") ("m1") ⟨[(addrALower, 10000)], "s0", "m0", 50, 1⟩
    (by decide) (by rfl) (by decide) (by decide) (by decide) (by decide) (by decide) (by decide)
    (by rfl) (by unfold normalizedPools; norm_num [jsRound, VOTE_WEIGHT_TOTAL]) (by decide)

end Server

/-! ### Position scoring and the final miner weight vector

`Scoring` embeds `gaussianScore`, `calculatePositionScore` (lines 218-332 of
`src/utils/poolValidationUtils.ts`) and `calculateFinalMinerWeights` (lines
1820-1869) over the real numbers.  A JavaScript number that may be missing
or `NaN` is an `Option ℝ` whose `none` covers both cases; record maps are
functions into `Option ℝ`. -/

namespace Scoring

section AbstractField

variable {R : Type} [LinearOrderedField R]

/-- The `FEE_TIER_STD_DEVS` record, keyed by the fee-tier string.  The
number type is kept abstract (any linear ordered field, instantiated at ℝ
in the theorems) so that the embedding stays executable. -/
def FEE_TIER_STD_DEVS : String → Option R := fun s =>
  if s = "100" then some 10
  else if s = "500" then some 50
  else if s = "3000" then some 200
  else if s = "10000" then some 500
  else none

/-- Embedding of `gaussianScore` (lines 259-265); `rexp` abstracts
`Math.exp`. -/
def gaussianScore (rexp : R → R) (distance a c : R) : R :=
  if c ≤ 0 then 0 else a * rexp (-(distance ^ 2) / (2 * c ^ 2))

structure PoolRef where
  id : String
  feeTier : String
deriving DecidableEq

structure Position (R : Type) where
  id : String
  pool : Option PoolRef
  tickLower : Option R
  tickUpper : Option R
  liquidity : Option R
  token0Id : String
  token1Id : String

structure PositionScore (R : Type) where
  gaussianMultiplier : R
  liquidityAmount : R
  finalScore : R
  poolId : String
  pairKey : String

/-- Embedding of `calculatePositionScore` (lines 267-332): missing pool or
numeric data scores 0 (`none` models a missing field or `NaN`), a range not
strictly containing the current tick scores 0, otherwise Simpson's rule over
the Gaussian at the bounds and the midpoint, scaled by liquidity over 10^9.
Constants inlined: GAUSSIAN_AMPLITUDE = 10, DEFAULT_STD_DEV = 200,
LIQUIDITY_NORMALIZATION_FACTOR = 10^9. -/
def calculatePositionScore (rexp : R → R) (pos : Position R) (currentTick : Option R) :
    PositionScore R :=
  match pos.pool with
  | none => ⟨0, 0, 0, "", ""⟩
  | some pool =>
    match pos.tickLower, pos.tickUpper, pos.liquidity with
    | some tickLower, some tickUpper, some liquidityRaw =>
      let poolId := pool.id
      let pairKey :=
        if pos.token0Id < pos.token1Id
        then pos.token0Id ++ "-" ++ pos.token1Id
        else pos.token1Id ++ "-" ++ pos.token0Id
      match currentTick with
      | none => ⟨0, 0, 0, poolId, pairKey⟩
      | some ct =>
        if tickLower ≥ tickUpper then ⟨0, 0, 0, poolId, pairKey⟩
        else if ct ≤ tickLower ∨ ct ≥ tickUpper then ⟨0, 0, 0, poolId, pairKey⟩
        else
          let stdDev := (FEE_TIER_STD_DEVS pool.feeTier).getD 200
          let midPoint := (tickLower + tickUpper) / 2
          let scoreLower := gaussianScore rexp |ct - tickLower| 10 stdDev
          let scoreUpper := gaussianScore rexp |ct - tickUpper| 10 stdDev
          let scoreMid := gaussianScore rexp |ct - midPoint| 10 stdDev
          let avg := (scoreLower + 4 * scoreMid + scoreUpper) / 6
          let liquidityAmount := liquidityRaw / 10 ^ 9
          ⟨avg, liquidityAmount, avg * liquidityAmount, poolId, pairKey⟩
    | _, _, _ => ⟨0, 0, 0, "", ""⟩

/-- The per-fee-tier standard deviation as the specification words it:
the four tabulated tiers, default 200. -/
def sigmaSpec (feeTier : String) : R :=
  if feeTier = "100" then 10
  else if feeTier = "500" then 50
  else if feeTier = "3000" then 200
  else if feeTier = "10000" then 500
  else 200

theorem sigmaSpec_pos (ft : String) : 0 < (sigmaSpec ft : R) := by
  unfold sigmaSpec
  split_ifs <;> norm_num

theorem getD_feeTier_eq_sigmaSpec (ft : String) :
    ((FEE_TIER_STD_DEVS ft : Option R)).getD 200 = sigmaSpec ft := by
  unfold FEE_TIER_STD_DEVS sigmaSpec
  split_ifs <;> rfl

theorem gaussianScore_pos_sigma (rexp : R → R) (d : R) (ft : String) :
    gaussianScore rexp d 10 (sigmaSpec ft) =
      10 * rexp (-(d ^ 2) / (2 * sigmaSpec ft ^ 2)) := by
  unfold gaussianScore
  rw [if_neg (not_le.mpr (sigmaSpec_pos ft))]

/-- One miner's accumulated contribution (lines 1832-1847): the sum over the
miner's positions of normalized score times the pool's vote weight; positions
with a missing or empty pool id are skipped, absent record entries default to
0. -/
def minerContribution (scores poolW : String → Option R) (ps : List (Position R)) : R :=
  (ps.map (fun p =>
    match p.pool with
    | none => 0
    | some pool =>
      if pool.id = "" then 0
      else (scores p.id).getD 0 * (poolW (lowerStr pool.id)).getD 0)).sum

/-- Embedding of `calculateFinalMinerWeights` (lines 1820-1869): compute the
contributions, zero every weight below 1e-9, and renormalize by the total
when it is positive.  The miner ids of the input are assumed distinct, as
JavaScript object keys are. -/
def calculateFinalMinerWeights (inp : List (String × List (Position R)))
    (scores poolW : String → Option R) : List (String × R) :=
  let finalMinerWeights := inp.map (fun m => (m.1, minerContribution scores poolW m.2))
  let thr := finalMinerWeights.map (fun m => (m.1, if m.2 < 1 / 10 ^ 9 then 0 else m.2))
  let totalWeight := (thr.map Prod.snd).sum
  if totalWeight > 0 then thr.map (fun m => (m.1, m.2 / totalWeight)) else thr

theorem sum_map_div (l : List R) (t : R) : (l.map (fun x => x / t)).sum = l.sum / t := by
  induction l with
  | nil => simp
  | cons x xs ih => simp [ih, add_div]

theorem thresholded_nonneg (inp : List (String × List (Position R)))
    (scores poolW : String → Option R) :
    ∀ p ∈ (inp.map (fun m => (m.1, minerContribution scores poolW m.2))).map
        (fun m => (m.1, if m.2 < 1 / 10 ^ 9 then 0 else m.2)), 0 ≤ p.2 := by
  intro p hp
  obtain ⟨q, _, rfl⟩ := List.mem_map.mp hp
  dsimp only
  split
  · exact le_refl 0
  · next hq =>
    have hτ : (0 : R) < 1 / 10 ^ 9 := by positivity
    have := not_lt.mp hq
    linarith

end AbstractField

end Scoring

/-- C9: for an active position (t_l < t* < t_u, all numeric inputs present)
the score is Simpson's rule over the Gaussian g(d) = 10 exp(-d^2 / (2 sigma^2))
at the two bounds and the midpoint, divided by 6 and scaled by L / 10^9,
with sigma from the fee-tier table (default 200); for t* <= t_l, t* >= t_u,
or missing / non-finite numeric inputs the score is 0. -/
theorem calculatePositionScore_spec :
    (∀ (pos : Scoring.Position ℝ) (pool : Scoring.PoolRef) (tl tu lq : ℝ),
      pos.pool = some pool → pos.tickLower = some tl → pos.tickUpper = some tu →
      pos.liquidity = some lq →
      ∀ ct : ℝ, tl < ct → ct < tu →
        (Scoring.calculatePositionScore Real.exp pos (some ct)).finalScore =
          ((10 * Real.exp (-(|ct - tl| ^ 2) / (2 * Scoring.sigmaSpec pool.feeTier ^ 2)) +
            4 * (10 * Real.exp (-(|ct - (tl + tu) / 2| ^ 2) /
                  (2 * Scoring.sigmaSpec pool.feeTier ^ 2))) +
            10 * Real.exp (-(|ct - tu| ^ 2) / (2 * Scoring.sigmaSpec pool.feeTier ^ 2))) / 6) *
            (lq / 10 ^ 9)) ∧
    (∀ (pos : Scoring.Position ℝ) (tl tu ct : ℝ),
      pos.tickLower = some tl → pos.tickUpper = some tu → (ct ≤ tl ∨ tu ≤ ct) →
      (Scoring.calculatePositionScore Real.exp pos (some ct)).finalScore = 0) ∧
    (∀ (pos : Scoring.Position ℝ) (oct : Option ℝ),
      (pos.pool = none ∨ pos.tickLower = none ∨ pos.tickUpper = none ∨
        pos.liquidity = none ∨ oct = none) →
      (Scoring.calculatePositionScore Real.exp pos oct).finalScore = 0) := by
  refine ⟨?_, ?_, ?_⟩
  · intro pos pool tl tu lq hpool htl htu hlq ct h1 h2
    unfold Scoring.calculatePositionScore
    rw [hpool, htl, htu, hlq]
    dsimp only
    rw [if_neg (not_le.mpr (lt_trans h1 h2)), if_neg (by push_neg; exact ⟨h1, h2⟩)]
    dsimp only
    rw [Scoring.getD_feeTier_eq_sigmaSpec, Scoring.gaussianScore_pos_sigma,
      Scoring.gaussianScore_pos_sigma, Scoring.gaussianScore_pos_sigma]
  · intro pos tl tu ct htl htu hout
    unfold Scoring.calculatePositionScore
    cases hpool : pos.pool with
    | none => rfl
    | some pool =>
      rw [htl, htu]
      cases hlq : pos.liquidity with
      | none => rfl
      | some lq =>
        dsimp only
        by_cases hord : tl ≥ tu
        · rw [if_pos hord]
        · rw [if_neg hord, if_pos hout]
  · intro pos oct hcase
    unfold Scoring.calculatePositionScore
    rcases hcase with h | h | h | h | h
    · rw [h]
    · cases hpool : pos.pool with
      | none => rfl
      | some pool => rw [h]
    · cases hpool : pos.pool with
      | none => rfl
      | some pool =>
        cases htl : pos.tickLower with
        | none => rfl
        | some tl => rw [h]
    · cases hpool : pos.pool with
      | none => rfl
      | some pool =>
        cases htl : pos.tickLower with
        | none => rfl
        | some tl =>
          cases htu : pos.tickUpper with
          | none => rfl
          | some tu => rw [h]
    · cases hpool : pos.pool with
      | none => rfl
      | some pool =>
        cases htl : pos.tickLower with
        | none => rfl
        | some tl =>
          cases htu : pos.tickUpper with
          | none => rfl
          | some tu =>
            cases hlq : pos.liquidity with
            | none => rfl
            | some lq => rw [h]

theorem calculatePositionScore_spec_witness :
    (Scoring.calculatePositionScore Real.exp
        ⟨"p1", some ⟨"pool1", "3000"⟩, some 0, some 100, some 1, "t0", "t1"⟩
        (some 50)).finalScore =
      ((10 * Real.exp (-(|(50 : ℝ) - 0| ^ 2) / (2 * Scoring.sigmaSpec ("3000") ^ 2)) +
        4 * (10 * Real.exp (-(|(50 : ℝ) - (0 + 100) / 2| ^ 2) /
              (2 * Scoring.sigmaSpec ("3000") ^ 2))) +
        10 * Real.exp (-(|(50 : ℝ) - 100| ^ 2) / (2 * Scoring.sigmaSpec ("3000") ^ 2))) / 6) *
        ((1 : ℝ) / 10 ^ 9) :=
  calculatePositionScore_spec.1
    ⟨"p1", some ⟨"pool1", "3000"⟩, some 0, some 100, some 1, "t0", "t1"⟩
    ⟨"pool1", "3000"⟩ 0 100 1 rfl rfl rfl rfl 50 (by norm_num) (by norm_num)

/-- C2: the per-miner weight vector has no negative component, every
component whose raw contribution falls below 10^-9 ends up 0, and the
components sum to exactly 1 when some component is positive and are all 0
otherwise. -/
theorem calculateFinalMinerWeights_invariants
    (inp : List (String × List (Scoring.Position ℝ))) (scores poolW : String → Option ℝ)
    (hnodup : (inp.map Prod.fst).Nodup) :
    (∀ p ∈ Scoring.calculateFinalMinerWeights inp scores poolW, 0 ≤ p.2) ∧
    (∀ i : ℕ, ∀ m : String, ∀ ps : List (Scoring.Position ℝ), inp[i]? = some (m, ps) →
      Scoring.minerContribution scores poolW ps < 1 / 10 ^ 9 →
      (Scoring.calculateFinalMinerWeights inp scores poolW)[i]? = some (m, 0)) ∧
    ((∃ p ∈ Scoring.calculateFinalMinerWeights inp scores poolW, 0 < p.2) →
      ((Scoring.calculateFinalMinerWeights inp scores poolW).map Prod.snd).sum = 1) ∧
    ((¬ ∃ p ∈ Scoring.calculateFinalMinerWeights inp scores poolW, 0 < p.2) →
      ∀ p ∈ Scoring.calculateFinalMinerWeights inp scores poolW, p.2 = 0) := by
  have hthr := Scoring.thresholded_nonneg inp scores poolW
  have hnonneg : ∀ p ∈ Scoring.calculateFinalMinerWeights inp scores poolW, 0 ≤ p.2 := by
    intro p hp
    unfold Scoring.calculateFinalMinerWeights at hp
    dsimp only at hp
    split at hp
    · next htot =>
      obtain ⟨q, hq, rfl⟩ := List.mem_map.mp hp
      exact div_nonneg (hthr q hq) (le_of_lt htot)
    · exact hthr p hp
  refine ⟨hnonneg, ?_, ?_, ?_⟩
  · intro i m ps hi hc
    unfold Scoring.calculateFinalMinerWeights
    dsimp only
    have h1 : (inp.map (fun m => (m.1, Scoring.minerContribution scores poolW m.2)))[i]? =
        some (m, Scoring.minerContribution scores poolW ps) := by
      rw [List.getElem?_map, hi]
      rfl
    have h2 : ((inp.map (fun m => (m.1, Scoring.minerContribution scores poolW m.2))).map
        (fun m => (m.1, if m.2 < 1 / 10 ^ 9 then (0 : ℝ) else m.2)))[i]? = some (m, 0) := by
      rw [List.getElem?_map, h1]
      simp only [Option.map_some']
      rw [if_pos hc]
    split
    · rw [List.getElem?_map, h2]
      simp only [Option.map_some']
      rw [zero_div]
    · exact h2
  · intro hex
    unfold Scoring.calculateFinalMinerWeights at hex ⊢
    dsimp only at hex ⊢
    by_cases htot : ((((inp.map (fun m => (m.1, Scoring.minerContribution scores poolW m.2))).map
        (fun m => (m.1, if m.2 < 1 / 10 ^ 9 then (0 : ℝ) else m.2))).map Prod.snd)).sum > 0
    · rw [if_pos htot] at hex ⊢
      rw [List.map_map]
      have hcomp : (Prod.snd ∘ fun m : String × ℝ =>
          (m.1, m.2 / (((inp.map (fun m => (m.1, Scoring.minerContribution scores poolW m.2))).map
            (fun m => (m.1, if m.2 < 1 / 10 ^ 9 then (0 : ℝ) else m.2))).map Prod.snd).sum)) =
          (fun x : String × ℝ => x.2 / (((inp.map
            (fun m => (m.1, Scoring.minerContribution scores poolW m.2))).map
            (fun m => (m.1, if m.2 < 1 / 10 ^ 9 then (0 : ℝ) else m.2))).map Prod.snd).sum) := rfl
      rw [hcomp]
      have := Scoring.sum_map_div (R := ℝ)
      rw [show ((fun x : String × ℝ => x.2 / (((inp.map
          (fun m => (m.1, Scoring.minerContribution scores poolW m.2))).map
          (fun m => (m.1, if m.2 < 1 / 10 ^ 9 then (0 : ℝ) else m.2))).map Prod.snd).sum)) =
          ((fun x : ℝ => x / (((inp.map
            (fun m => (m.1, Scoring.minerContribution scores poolW m.2))).map
            (fun m => (m.1, if m.2 < 1 / 10 ^ 9 then (0 : ℝ) else m.2))).map Prod.snd).sum) ∘
            Prod.snd) from rfl]
      rw [← List.map_map, Scoring.sum_map_div]
      exact div_self (ne_of_gt htot)
    · rw [if_neg htot] at hex ⊢
      exfalso
      obtain ⟨p, hp, hppos⟩ := hex
      have hle := List.single_le_sum (fun x hx => by
          obtain ⟨q, hq, rfl⟩ := List.mem_map.mp hx
          exact hthr q hq) p.2 (List.mem_map.mpr ⟨p, hp, rfl⟩)
      exact htot (lt_of_lt_of_le hppos hle)
  · intro hno p hp
    rcases lt_or_eq_of_le (hnonneg p hp) with hlt | heq
    · exact absurd ⟨p, hp, hlt⟩ hno
    · exact heq.symm

theorem calculateFinalMinerWeights_invariants_witness :
    (∀ p ∈ Scoring.calculateFinalMinerWeights
        [(("m1" : String), ([] : List (Scoring.Position ℝ))), (("m2" : String), [])]
        (fun _ => none) (fun _ => none), 0 ≤ p.2) ∧
    (∀ i : ℕ, ∀ m : String, ∀ ps : List (Scoring.Position ℝ),
      ([(("m1" : String), ([] : List (Scoring.Position ℝ))), (("m2" : String), [])])[i]?
          = some (m, ps) →
      Scoring.minerContribution (fun _ => none) (fun _ => none) ps < 1 / 10 ^ 9 →
      (Scoring.calculateFinalMinerWeights
        [(("m1" : String), ([] : List (Scoring.Position ℝ))), (("m2" : String), [])]
        (fun _ => none) (fun _ => none))[i]? = some (m, 0)) ∧
    ((∃ p ∈ Scoring.calculateFinalMinerWeights
        [(("m1" : String), ([] : List (Scoring.Position ℝ))), (("m2" : String), [])]
        (fun _ => none) (fun _ => none), 0 < p.2) →
      ((Scoring.calculateFinalMinerWeights
        [(("m1" : String), ([] : List (Scoring.Position ℝ))), (("m2" : String), [])]
        (fun _ => none) (fun _ => none)).map Prod.snd).sum = 1) ∧
    ((¬ ∃ p ∈ Scoring.calculateFinalMinerWeights
        [(("m1" : String), ([] : List (Scoring.Position ℝ))), (("m2" : String), [])]
        (fun _ => none) (fun _ => none), 0 < p.2) →
      ∀ p ∈ Scoring.calculateFinalMinerWeights
        [(("m1" : String), ([] : List (Scoring.Position ℝ))), (("m2" : String), [])]
        (fun _ => none) (fun _ => none), p.2 = 0) :=
  calculateFinalMinerWeights_invariants
    [(("m1" : String), ([] : List (Scoring.Position ℝ))), (("m2" : String), [])]
    (fun _ => none) (fun _ => none) (by decide)

/-! ### Signature verification

`Signatures` embeds `verifySignature` and `verifyEthereumSignature` from
`src/utils/signatureUtils.ts` (lines 4-34).  The cryptographic primitives
`signatureVerify`, `encodeAddress` and `verifyMessage` are abstracted as
`Except`-valued oracles: an `.error` outcome stands for a thrown exception,
which the surrounding try/catch converts into the invalid-signature result.
Addresses and public keys are strings. -/

namespace Signatures

structure VerifyResult where
  success : Bool
  error : Option String
deriving DecidableEq

/-- Embedding of `verifySignature` (lines 4-19): recover with
`signatureVerify`, require validity, re-encode the public key with SS58
prefix 42 and require equality with the supplied address; every failure,
mismatch or exception yields the invalid-signature result. -/
def verifySignature (sigVerify : String → String → String → Except String (Bool × String))
    (encodeAddress : String → Nat → Except String String)
    (message signature address : String) : VerifyResult :=
  match sigVerify message signature address with
  | Except.error _ => ⟨false, some ("Invalid signature")⟩
  | Except.ok (isValid, publicKey) =>
    if isValid = false then ⟨false, some ("Invalid signature")⟩
    else
      match encodeAddress publicKey 42 with
      | Except.error _ => ⟨false, some ("Invalid signature")⟩
      | Except.ok recoveredAddress =>
        if recoveredAddress ≠ address then ⟨false, some ("Invalid signature")⟩
        else ⟨true, none⟩

/-- Embedding of `verifyEthereumSignature` (lines 21-34): recover with
`verifyMessage` and compare case-insensitively. -/
def verifyEthereumSignature (verifyMessage : String → String → Except String String)
    (message signature address : String) : VerifyResult :=
  match verifyMessage message signature with
  | Except.error _ => ⟨false, some ("Invalid signature")⟩
  | Except.ok recoveredAddress =>
    if lowerStr recoveredAddress ≠ lowerStr address then ⟨false, some ("Invalid signature")⟩
    else ⟨true, none⟩

end Signatures

/-- C10: both verifiers always return a result (they are total functions, so
no exception escapes: a thrown exception is the oracle's `.error` outcome);
success holds exactly when recovery succeeded, the signature was valid, and
the SS58-reencoded public key equals the address byte-for-byte
(respectively the recovered EVM address matches case-insensitively); in
every other case the result is success = false with error
'Invalid signature'. -/
theorem verifySignature_total_spec :
    (∀ (sv : String → String → String → Except String (Bool × String))
       (ea : String → Nat → Except String String) (m s a : String),
      ((Signatures.verifySignature sv ea m s a).success = true ↔
        ∃ pk, sv m s a = Except.ok (true, pk) ∧ ea pk 42 = Except.ok a) ∧
      ((Signatures.verifySignature sv ea m s a).success = false →
        (Signatures.verifySignature sv ea m s a).error = some ("Invalid signature")) ∧
      ((Signatures.verifySignature sv ea m s a).success = true →
        (Signatures.verifySignature sv ea m s a).error = none)) ∧
    (∀ (vm : String → String → Except String String) (m s a : String),
      ((Signatures.verifyEthereumSignature vm m s a).success = true ↔
        ∃ r, vm m s = Except.ok r ∧ lowerStr r = lowerStr a) ∧
      ((Signatures.verifyEthereumSignature vm m s a).success = false →
        (Signatures.verifyEthereumSignature vm m s a).error = some ("Invalid signature")) ∧
      ((Signatures.verifyEthereumSignature vm m s a).success = true →
        (Signatures.verifyEthereumSignature vm m s a).error = none)) := by
  constructor
  · intro sv ea m s a
    unfold Signatures.verifySignature
    cases hsv : sv m s a with
    | error e =>
      dsimp only
      exact ⟨⟨fun hc => Bool.noConfusion hc, fun ⟨pk, hpk, _⟩ => Except.noConfusion hpk⟩,
        fun _ => rfl, fun hc => Bool.noConfusion hc⟩
    | ok pair =>
      obtain ⟨isValid, publicKey⟩ := pair
      cases isValid with
      | false =>
        dsimp only
        rw [if_pos rfl]
        exact ⟨⟨fun hc => Bool.noConfusion hc, fun ⟨pk, hpk, _⟩ => absurd hpk (by simp)⟩,
          fun _ => rfl, fun hc => Bool.noConfusion hc⟩
      | true =>
        dsimp only
        rw [if_neg (by simp)]
        cases hea : ea publicKey 42 with
        | error e =>
          dsimp only
          refine ⟨⟨fun hc => Bool.noConfusion hc, fun ⟨pk, hpk, hpk2⟩ => ?_⟩,
            fun _ => rfl, fun hc => Bool.noConfusion hc⟩
          injection hpk with h
          injection h with h1 h2
          subst h2
          rw [hea] at hpk2
          exact Except.noConfusion hpk2
        | ok recovered =>
          dsimp only
          by_cases hrec : recovered ≠ a
          · rw [if_pos hrec]
            refine ⟨⟨fun hc => Bool.noConfusion hc, fun ⟨pk, hpk, hpk2⟩ => ?_⟩,
              fun _ => rfl, fun hc => Bool.noConfusion hc⟩
            injection hpk with h
            injection h with h1 h2
            subst h2
            rw [hea] at hpk2
            injection hpk2 with h3
            exact absurd h3 hrec
          · rw [if_neg hrec]
            exact ⟨⟨fun _ => ⟨publicKey, rfl, by rw [hea, not_ne_iff.mp hrec]⟩,
              fun _ => rfl⟩, fun hc => Bool.noConfusion hc, fun _ => rfl⟩
  · intro vm m s a
    unfold Signatures.verifyEthereumSignature
    cases hvm : vm m s with
    | error e =>
      dsimp only
      exact ⟨⟨fun hc => Bool.noConfusion hc, fun ⟨r, hr, _⟩ => Except.noConfusion hr⟩,
        fun _ => rfl, fun hc => Bool.noConfusion hc⟩
    | ok recovered =>
      dsimp only
      by_cases hrec : lowerStr recovered ≠ lowerStr a
      · rw [if_pos hrec]
        refine ⟨⟨fun hc => Bool.noConfusion hc, fun ⟨r, hr, hr2⟩ => ?_⟩, fun _ => rfl,
          fun hc => Bool.noConfusion hc⟩
        injection hr with h
        subst h
        exact absurd hr2 hrec
      · rw [if_neg hrec]
        exact ⟨⟨fun _ => ⟨recovered, rfl, not_ne_iff.mp hrec⟩, fun _ => rfl⟩,
          fun hc => Bool.noConfusion hc, fun _ => rfl⟩

theorem verifySignature_total_spec_witness :
    (Signatures.verifySignature (fun _ _ _ => Except.ok (true, "pk"))
        (fun _ _ => Except.ok ("addr")) ("m") ("s") ("addr")).success = true :=
  ((verifySignature_total_spec.1 (fun _ _ _ => Except.ok (true, "pk"))
    (fun _ _ => Except.ok ("addr")) ("m") ("s") ("addr")).1).mpr ⟨"pk", rfl, rfl⟩

end SN77
